import Mathlib

/-!
Verification of the commit-planning core of `git_art.py`.

A calendar date is identified with its proleptic-Gregorian ordinal, exactly as
CPython's `datetime.date` stores it: day 1 is 0001-01-01.  The helper functions
below mirror `datetime`'s internal `_days_before_year`, `_days_before_month`,
`_ord2ymd` (year component), `date.weekday`, and `date + timedelta`.
-/

namespace GitArt

def MAX_IMAGE_HEIGHT : Nat := 7

def MAX_IMAGE_WIDTH : Nat := 51

def ALPHA_THRESHOLD : Nat := 128

/-- Mirrors `calendar.isleap` / `datetime._is_leap`: `y % 4 == 0 and (y % 100 != 0 or y % 400 == 0)`. -/
def isLeap (y : Nat) : Bool :=
  decide (y % 4 = 0) && (!decide (y % 100 = 0) || decide (y % 400 = 0))

/-- Mirrors `datetime._days_before_year`: number of days before January 1 of year `y`. -/
def daysBeforeYear (y : Nat) : Nat :=
  (y - 1) * 365 + (y - 1) / 4 - (y - 1) / 100 + (y - 1) / 400

/-- Cumulative day counts before each month in a non-leap year
(`datetime._DAYS_BEFORE_MONTH`, with index 0 unused). -/
def DAYS_BEFORE_MONTH : List Nat :=
  [0, 0, 31, 59, 90, 120, 151, 181, 212, 243, 273, 304, 334]

/-- Mirrors `datetime._days_before_month`. -/
def daysBeforeMonth (y m : Nat) : Nat :=
  DAYS_BEFORE_MONTH.getD m 0 + (if decide (2 < m) && isLeap y then 1 else 0)

/-- Mirrors `datetime.date(y, m, d).toordinal()`. -/
def toordinal (y m d : Nat) : Nat :=
  daysBeforeYear y + daysBeforeMonth y m + d

/-- Mirrors `datetime.date.fromordinal(o).weekday()`: Monday = 0 … Sunday = 6. -/
def weekday (o : Nat) : Nat := (o + 6) % 7

/-- The year component of `datetime._ord2ymd(o)` (CPython's ordinal-to-date
conversion): peel off 400-year, 100-year, 4-year and 1-year cycles, with the
final correction for December 31 of a leap year. -/
def yearOf (o : Nat) : Nat :=
  let n := o - 1
  let n400 := n / 146097
  let r1 := n % 146097
  let n100 := r1 / 36524
  let r2 := r1 % 36524
  let n4 := r2 / 1461
  let r3 := r2 % 1461
  let n1 := r3 / 365
  let year := n400 * 400 + n100 * 100 + n4 * 4 + n1 + 1
  if n1 == 4 || n100 == 4 then year - 1 else year

/-- Mirrors `get_first_sunday_of_graph` (git_art.py:63-73): January 1 of `year`
advanced by `(6 - jan_1.weekday() + 7) % 7` days. -/
def get_first_sunday_of_graph (year : Nat) : Nat :=
  let jan1 := toordinal year 1 1
  let daysToAdd := (6 - weekday jan1 + 7) % 7
  jan1 + daysToAdd

theorem weekday_lt_7 (o : Nat) : weekday o < 7 := Nat.mod_lt _ (by omega)

/-- C2: for every year, `get_first_sunday_of_graph` returns a Sunday
(Python weekday 6) lying between January 1 and January 7 of that year,
and returns January 1 itself when January 1 is a Sunday. -/
theorem first_sunday_correct (year : Nat) :
    weekday (get_first_sunday_of_graph year) = 6 ∧
    toordinal year 1 1 ≤ get_first_sunday_of_graph year ∧
    get_first_sunday_of_graph year ≤ toordinal year 1 7 ∧
    (weekday (toordinal year 1 1) = 6 → get_first_sunday_of_graph year = toordinal year 1 1) := by
  have h1 : toordinal year 1 1 = daysBeforeYear year + 1 := by
    simp [toordinal, daysBeforeMonth, DAYS_BEFORE_MONTH]
  have h7 : toordinal year 1 7 = daysBeforeYear year + 7 := by
    simp [toordinal, daysBeforeMonth, DAYS_BEFORE_MONTH]
  simp only [get_first_sunday_of_graph, weekday, h1, h7]
  omega

theorem first_sunday_witness : get_first_sunday_of_graph 2023 = toordinal 2023 1 1 :=
  (first_sunday_correct 2023).2.2.2 (by decide)

theorem isLeap_iff (y : Nat) :
    isLeap y = true ↔ y % 4 = 0 ∧ (y % 100 ≠ 0 ∨ y % 400 = 0) := by
  simp only [isLeap, Bool.and_eq_true, Bool.or_eq_true, decide_eq_true_eq,
    Bool.not_eq_true', decide_eq_false_iff_not]

/-- Dividing `c * A + r` by `c` recovers `A` when `r < c`. -/
theorem quotc (c A r : Nat) (hc : 0 < c) (hr : r < c) : (c * A + r) / c = A := by
  rw [Nat.mul_add_div hc, Nat.div_eq_of_lt hr, Nat.add_zero]

set_option maxHeartbeats 1000000 in
/-- Fact: `daysBeforeYear` grows by at most 366 across one year (366 only for leap years). -/
theorem daysBeforeYear_succ_le (y : Nat) :
    daysBeforeYear (y + 1) ≤ daysBeforeYear y + (if isLeap y then 366 else 365) := by
  by_cases hl : isLeap y = true
  · rw [if_pos hl]
    rw [isLeap_iff] at hl
    obtain ⟨h4, h100⟩ := hl
    rcases h100 with h | h <;> · simp only [daysBeforeYear]; omega
  · rw [if_neg hl]
    rw [isLeap_iff] at hl
    push_neg at hl
    by_cases h4 : y % 4 = 0
    · obtain ⟨h100, h400⟩ := hl h4
      simp only [daysBeforeYear]; omega
    · simp only [daysBeforeYear]; omega

/-- Fact: `daysBeforeYear` grows by at least 365 across one year. -/
theorem daysBeforeYear_succ_ge (y : Nat) (hy : 1 ≤ y) :
    daysBeforeYear y + 365 ≤ daysBeforeYear (y + 1) := by
  by_cases h100 : y % 100 = 0
  · simp only [daysBeforeYear]; omega
  · simp only [daysBeforeYear]; omega

theorem daysBeforeYear_mono {y z : Nat} (h : y ≤ z) : daysBeforeYear y ≤ daysBeforeYear z := by
  have key : ∀ a b : Nat, a ≤ b →
      a * 365 + a / 4 - a / 100 + a / 400 ≤ b * 365 + b / 4 - b / 100 + b / 400 := by
    intro a b hab
    have h1 : a / 4 ≤ b / 4 := Nat.div_le_div_right hab
    have h3 : a / 400 ≤ b / 400 := Nat.div_le_div_right hab
    have h5 : b / 100 ≤ a / 100 + (b - a) := by
      have hb : b ≤ a + 100 * (b - a) := by omega
      calc b / 100 ≤ (a + 100 * (b - a)) / 100 := Nat.div_le_div_right hb
        _ = a / 100 + (b - a) := by rw [Nat.add_mul_div_left _ _ (by norm_num)]
    omega
  exact key (y - 1) (z - 1) (by omega)

/-- Evaluate `daysBeforeYear (X + 1)` once the three quotients of `X` are known. -/
theorem dby_eval (X Q4 Q100 Q400 : Nat)
    (h4 : X / 4 = Q4) (h100 : X / 100 = Q100) (h400 : X / 400 = Q400) :
    daysBeforeYear (X + 1) = X * 365 + Q4 - Q100 + Q400 := by
  simp only [daysBeforeYear, Nat.add_sub_cancel, h4, h100, h400]

set_option maxHeartbeats 1000000 in
/-- The `_ord2ymd` cycle decomposition recovers the correct year: ordinal `o`
lies strictly after the last day before year `yearOf o` and no later than the
last day of year `yearOf o`. -/
theorem yearOf_bounds (o : Nat) (ho : 1 ≤ o) :
    daysBeforeYear (yearOf o) < o ∧ o ≤ daysBeforeYear (yearOf o + 1) := by
  obtain ⟨n, rfl⟩ : ∃ n, o = n + 1 := ⟨o - 1, by omega⟩
  obtain ⟨A, hA⟩ : ∃ a, n / 146097 = a := ⟨_, rfl⟩
  obtain ⟨rA, hrA⟩ : ∃ r, n % 146097 = r := ⟨_, rfl⟩
  obtain ⟨B, hB⟩ : ∃ b, rA / 36524 = b := ⟨_, rfl⟩
  obtain ⟨rB, hrB⟩ : ∃ r, rA % 36524 = r := ⟨_, rfl⟩
  obtain ⟨C, hC⟩ : ∃ c, rB / 1461 = c := ⟨_, rfl⟩
  obtain ⟨rC, hrC⟩ : ∃ r, rB % 1461 = r := ⟨_, rfl⟩
  obtain ⟨D, hD⟩ : ∃ d, rC / 365 = d := ⟨_, rfl⟩
  obtain ⟨rD, hrD⟩ : ∃ r, rC % 365 = r := ⟨_, rfl⟩
  have hy : yearOf (n + 1) =
      if D == 4 || B == 4 then A * 400 + B * 100 + C * 4 + D + 1 - 1
      else A * 400 + B * 100 + C * 4 + D + 1 := by
    simp only [yearOf, Nat.add_sub_cancel, hA, hrA, hB, hrB, hC, hrC, hD, hrD]
  have e1 : 146097 * A + rA = n := by rw [← hA, ← hrA]; exact Nat.div_add_mod n 146097
  have f1 : rA < 146097 := by rw [← hrA]; exact Nat.mod_lt _ (by norm_num)
  have e2 : 36524 * B + rB = rA := by rw [← hB, ← hrB]; exact Nat.div_add_mod rA 36524
  have f2 : rB < 36524 := by rw [← hrB]; exact Nat.mod_lt _ (by norm_num)
  have e3 : 1461 * C + rC = rB := by rw [← hC, ← hrC]; exact Nat.div_add_mod rB 1461
  have f3 : rC < 1461 := by rw [← hrC]; exact Nat.mod_lt _ (by norm_num)
  have e4 : 365 * D + rD = rC := by rw [← hD, ← hrD]; exact Nat.div_add_mod rC 365
  have f4 : rD < 365 := by rw [← hrD]; exact Nat.mod_lt _ (by norm_num)
  clear hA hrA hB hrB hC hrC hD hrD
  rw [hy]
  by_cases hcond : (D == 4 || B == 4) = true
  · rw [if_pos hcond]
    simp only [Bool.or_eq_true, beq_iff_eq] at hcond
    rcases hcond with h4 | h4
    · -- `D = 4`: the ordinal is December 31 of a leap year closing a 4-year cycle.
      subst h4
      have hrC0 : rC = 1460 ∧ rD = 0 := by omega
      have hB3 : B ≤ 3 := by omega
      have hC23 : C ≤ 23 := by omega
      rw [show A * 400 + B * 100 + C * 4 + 4 + 1 - 1 = (A * 400 + B * 100 + C * 4 + 3) + 1 by
        omega]
      have d1 := dby_eval (A * 400 + B * 100 + C * 4 + 3) (A * 100 + B * 25 + C) (A * 4 + B) A
        (by rw [show A * 400 + B * 100 + C * 4 + 3 = 4 * (A * 100 + B * 25 + C) + 3 by ring]
            exact quotc _ _ _ (by norm_num) (by norm_num))
        (by rw [show A * 400 + B * 100 + C * 4 + 3 = 100 * (A * 4 + B) + (C * 4 + 3) by ring]
            exact quotc _ _ _ (by norm_num) (by omega))
        (by rw [show A * 400 + B * 100 + C * 4 + 3 = 400 * A + (B * 100 + C * 4 + 3) by ring]
            exact quotc _ _ _ (by norm_num) (by omega))
      rw [show (A * 400 + B * 100 + C * 4 + 3) + 1 + 1 = (A * 400 + B * 100 + C * 4 + 4) + 1 by
        omega]
      have d2 := dby_eval (A * 400 + B * 100 + C * 4 + 4) (A * 100 + B * 25 + C + 1) (A * 4 + B) A
        (by rw [show A * 400 + B * 100 + C * 4 + 4 = 4 * (A * 100 + B * 25 + C + 1) + 0 by ring]
            exact quotc _ _ _ (by norm_num) (by norm_num))
        (by rw [show A * 400 + B * 100 + C * 4 + 4 = 100 * (A * 4 + B) + (C * 4 + 4) by ring]
            exact quotc _ _ _ (by norm_num) (by omega))
        (by rw [show A * 400 + B * 100 + C * 4 + 4 = 400 * A + (B * 100 + C * 4 + 4) by ring]
            exact quotc _ _ _ (by norm_num) (by omega))
      rw [d1, d2]
      omega
    · -- `B = 4`: the ordinal is December 31 of a year closing a 400-year cycle.
      subst h4
      have hr0 : rA = 146096 ∧ rB = 0 ∧ C = 0 ∧ rC = 0 ∧ D = 0 ∧ rD = 0 := by omega
      obtain ⟨_, _, hC0, _, hD0, _⟩ := hr0
      subst hC0; subst hD0
      rw [show A * 400 + 4 * 100 + 0 * 4 + 0 + 1 - 1 = (A * 400 + 399) + 1 by omega]
      have d1 := dby_eval (A * 400 + 399) (A * 100 + 99) (A * 4 + 3) A
        (by rw [show A * 400 + 399 = 4 * (A * 100 + 99) + 3 by ring]
            exact quotc _ _ _ (by norm_num) (by norm_num))
        (by rw [show A * 400 + 399 = 100 * (A * 4 + 3) + 99 by ring]
            exact quotc _ _ _ (by norm_num) (by norm_num))
        (by rw [show A * 400 + 399 = 400 * A + 399 by ring]
            exact quotc _ _ _ (by norm_num) (by norm_num))
      rw [show (A * 400 + 399) + 1 + 1 = (A * 400 + 400) + 1 by omega]
      have d2 := dby_eval (A * 400 + 400) (A * 100 + 100) (A * 4 + 4) (A + 1)
        (by rw [show A * 400 + 400 = 4 * (A * 100 + 100) + 0 by ring]
            exact quotc _ _ _ (by norm_num) (by norm_num))
        (by rw [show A * 400 + 400 = 100 * (A * 4 + 4) + 0 by ring]
            exact quotc _ _ _ (by norm_num) (by norm_num))
        (by rw [show A * 400 + 400 = 400 * (A + 1) + 0 by ring]
            exact quotc _ _ _ (by norm_num) (by norm_num))
      rw [d1, d2]
      omega
  · rw [if_neg hcond]
    simp only [Bool.or_eq_true, beq_iff_eq, not_or] at hcond
    obtain ⟨hD4, hB4⟩ := hcond
    have hB3 : B ≤ 3 := by omega
    have hC24 : C ≤ 24 := by omega
    have hD3 : D ≤ 3 := by omega
    have d1 := dby_eval (A * 400 + B * 100 + C * 4 + D) (A * 100 + B * 25 + C) (A * 4 + B) A
      (by rw [show A * 400 + B * 100 + C * 4 + D = 4 * (A * 100 + B * 25 + C) + D by ring]
          exact quotc _ _ _ (by norm_num) (by omega))
      (by rw [show A * 400 + B * 100 + C * 4 + D = 100 * (A * 4 + B) + (C * 4 + D) by ring]
          exact quotc _ _ _ (by norm_num) (by omega))
      (by rw [show A * 400 + B * 100 + C * 4 + D = 400 * A + (B * 100 + C * 4 + D) by ring]
          exact quotc _ _ _ (by norm_num) (by omega))
    have hge := daysBeforeYear_succ_ge (A * 400 + B * 100 + C * 4 + D + 1) (by omega)
    rw [d1] at hge ⊢
    omega

/-- Any ordinal beyond the last day of year `y` has year greater than `y`. -/
theorem yearOf_gt (year d : Nat) (hd : daysBeforeYear (year + 1) < d) :
    year < yearOf d := by
  by_contra h
  have h1 := (yearOf_bounds d (by omega)).2
  have h2 := daysBeforeYear_mono (show yearOf d + 1 ≤ year + 1 by omega)
  omega

/-- Fact: `daysBeforeYear (year + 1)` never exceeds `toordinal year 12 25 + 10`:
December 25 plus ten days is past the end of the year. -/
theorem dec25_plus_ten (year : Nat) :
    daysBeforeYear (year + 1) ≤ toordinal year 12 25 + 10 := by
  have h := daysBeforeYear_succ_le year
  have hg : DAYS_BEFORE_MONTH.getD 12 0 = 334 := rfl
  have hg2 : (DAYS_BEFORE_MONTH[12]?).getD 0 = 334 := rfl
  by_cases hl : isLeap year = true
  · rw [if_pos hl] at h
    simp [toordinal, daysBeforeMonth, hg, hg2, hl]
    omega
  · rw [if_neg hl] at h
    simp [toordinal, daysBeforeMonth, hg, hg2, hl]
    omega

/-!  The commit planner (`process_image_and_commit`, git_art.py:155-209). -/

/-- Mirrors `first_sunday_in_graph + datetime.timedelta(weeks=img_x, days=img_y)`
(git_art.py:165). -/
def pixelDate (anchor : Nat) (p : Nat × Nat) : Nat := anchor + 7 * p.1 + p.2

/-- The skip test at git_art.py:167-168:
`commit_date.year > year_to_draw_in and (commit_date - date(year, 12, 25)).days > 10`. -/
def outOfYearBound (d year : Nat) : Bool :=
  decide (year < yearOf d) && decide ((10 : Int) < (d : Int) - (toordinal year 12 25 : Int))

/-- One iteration of the pixel loop body (git_art.py:167-177): `none` when the
date is skipped, `some d` when it is appended to `commits_to_make`. -/
def pixelDecision (d year : Nat) (existing : List Nat) (force : Bool) : Option Nat :=
  if outOfYearBound d year then none
  else if !force && existing.contains d then none
  else some d

/-- The `commits_to_make` list accumulated over all active pixels
(git_art.py:155-177). -/
def planFromPixels (pixels : List (Nat × Nat)) (anchor year : Nat)
    (existing : List Nat) (force : Bool) : List Nat :=
  pixels.filterMap fun p => pixelDecision (pixelDate anchor p) year existing force

/-- Mirrors `sorted(list(set(l)))` (git_art.py:187 and 202): the distinct elements in
ascending order. -/
def sortedDedup (l : List Nat) : List Nat := List.insertionSort (· ≤ ·) l.dedup

theorem sortedDedup_perm (l : List Nat) : List.Perm (sortedDedup l) l.dedup :=
  List.perm_insertionSort _ _

theorem mem_sortedDedup {d : Nat} {l : List Nat} : d ∈ sortedDedup l ↔ d ∈ l :=
  (sortedDedup_perm l).mem_iff.trans (List.mem_dedup)

theorem sortedDedup_pairwise (l : List Nat) : (sortedDedup l).Pairwise (· < ·) := by
  have hs : (sortedDedup l).Sorted (· ≤ ·) := List.sorted_insertionSort _ _
  have hn : (sortedDedup l).Nodup := (sortedDedup_perm l).symm.nodup (l.nodup_dedup)
  exact (List.Pairwise.and hs hn).imp fun h => lt_of_le_of_ne h.1 h.2

/-- C1: the plan handed to dry-run reporting or execution
(`sorted(list(set(commits_to_make)))`) is strictly ascending — sorted with no
duplicate dates — for every pixel set, and an empty pixel set yields the empty
plan. -/
theorem plan_sorted_nodup (pixels : List (Nat × Nat)) (anchor year : Nat)
    (existing : List Nat) (force : Bool) :
    (sortedDedup (planFromPixels pixels anchor year existing force)).Pairwise (· < ·) ∧
    sortedDedup (planFromPixels [] anchor year existing force) = [] :=
  ⟨sortedDedup_pairwise _, rfl⟩

theorem pixelDecision_eq_some {d year d' : Nat} {existing : List Nat} {force : Bool}
    (h : pixelDecision d year existing force = some d') :
    d' = d ∧ outOfYearBound d year = false := by
  by_cases h1 : outOfYearBound d year = true
  · simp only [pixelDecision, if_pos h1] at h; cases h
  · simp only [pixelDecision, if_neg h1] at h
    refine ⟨?_, by simpa using h1⟩
    by_cases h2 : (!force && existing.contains d) = true
    · rw [if_pos h2] at h; cases h
    · rw [if_neg h2] at h; exact (Option.some.inj h).symm

theorem pixelDecision_accepts {d year : Nat} {existing : List Nat} {force : Bool}
    (h1 : outOfYearBound d year = false) (h2 : force = true ∨ d ∉ existing) :
    pixelDecision d year existing force = some d := by
  rcases h2 with h2 | h2
  · subst h2; simp [pixelDecision, h1]
  · simp [pixelDecision, h1, h2]

/-- C3: an active pixel's date is skipped by the year filter (without erroring)
exactly when the date's year exceeds the target year AND the date is more than
10 days after December 25 of the target year; consequently the date computed
for the pixel at `(maxWidth-1, maxHeight-1)`, when it is more than 10 days past
December 25, never appears in the plan. -/
theorem year_filter (pixels : List (Nat × Nat)) (anchor year : Nat)
    (existing : List Nat) (force : Bool)
    (hmem : (MAX_IMAGE_WIDTH - 1, MAX_IMAGE_HEIGHT - 1) ∈ pixels) (hy : 1 ≤ year)
    (hfar : (10 : Int) <
      (pixelDate anchor (MAX_IMAGE_WIDTH - 1, MAX_IMAGE_HEIGHT - 1) : Int) -
        (toordinal year 12 25 : Int)) :
    (∀ d : Nat,
      (outOfYearBound d year = true → pixelDecision d year existing force = none) ∧
      (outOfYearBound d year = false → force = true ∨ d ∉ existing →
        pixelDecision d year existing force = some d)) ∧
    pixelDate anchor (MAX_IMAGE_WIDTH - 1, MAX_IMAGE_HEIGHT - 1) ∉
      sortedDedup (planFromPixels pixels anchor year existing force) := by
  constructor
  · intro d
    exact ⟨fun h => by simp [pixelDecision, h], fun h1 h2 => pixelDecision_accepts h1 h2⟩
  · intro hin
    have hfar' : toordinal year 12 25 + 10 <
        pixelDate anchor (MAX_IMAGE_WIDTH - 1, MAX_IMAGE_HEIGHT - 1) := by omega
    have hgt : year < yearOf (pixelDate anchor (MAX_IMAGE_WIDTH - 1, MAX_IMAGE_HEIGHT - 1)) := by
      apply yearOf_gt
      have := dec25_plus_ten year
      omega
    have hbound : outOfYearBound (pixelDate anchor (MAX_IMAGE_WIDTH - 1, MAX_IMAGE_HEIGHT - 1))
        year = true := by
      simp only [outOfYearBound, Bool.and_eq_true, decide_eq_true_eq]
      exact ⟨hgt, hfar⟩
    rw [mem_sortedDedup] at hin
    obtain ⟨p, hp, hdec⟩ := List.mem_filterMap.mp hin
    obtain ⟨heq, hfalse⟩ := pixelDecision_eq_some hdec
    rw [← heq] at hfalse
    rw [hfalse] at hbound
    cases hbound

theorem year_filter_witness :
    pixelDate (toordinal 2026 1 1) (MAX_IMAGE_WIDTH - 1, MAX_IMAGE_HEIGHT - 1) ∉
      sortedDedup (planFromPixels [(MAX_IMAGE_WIDTH - 1, MAX_IMAGE_HEIGHT - 1)]
        (toordinal 2026 1 1) 2024 [] false) :=
  (year_filter [(MAX_IMAGE_WIDTH - 1, MAX_IMAGE_HEIGHT - 1)] (toordinal 2026 1 1) 2024 [] false
    (by decide) (by decide) (by decide)).2

/-- C4: when force-mode is off, every date in the produced plan is absent from
the existing-commit-date set (git_art.py:173-175), so the plan and the existing
set are disjoint. -/
theorem plan_disjoint_existing (pixels : List (Nat × Nat)) (anchor year : Nat)
    (existing : List Nat) (d : Nat)
    (hd : d ∈ sortedDedup (planFromPixels pixels anchor year existing false)) :
    d ∉ existing := by
  rw [mem_sortedDedup] at hd
  obtain ⟨p, hp, hdec⟩ := List.mem_filterMap.mp hd
  by_cases h1 : outOfYearBound (pixelDate anchor p) year = true
  · simp only [pixelDecision, if_pos h1] at hdec; cases hdec
  · simp only [pixelDecision, if_neg h1] at hdec
    by_cases h2 : pixelDate anchor p ∈ existing
    · rw [if_pos (by simp [h2])] at hdec; cases hdec
    · rw [if_neg (by simp [h2])] at hdec
      obtain rfl := Option.some.inj hdec
      exact h2

theorem plan_disjoint_existing_witness : get_first_sunday_of_graph 2024 ∉ [5] :=
  plan_disjoint_existing [(0, 0)] (get_first_sunday_of_graph 2024) 2024 [5]
    (get_first_sunday_of_graph 2024) (by decide)

/-- C5: planning is idempotent: the same inputs give the same plan, and once
the existing-date set absorbs every date of a previously built plan, replanning
with force off yields the empty plan. -/
theorem planner_idempotent (pixels : List (Nat × Nat)) (anchor year : Nat)
    (existing : List Nat) (force : Bool) :
    sortedDedup (planFromPixels pixels anchor year existing force) =
      sortedDedup (planFromPixels pixels anchor year existing force) ∧
    sortedDedup (planFromPixels pixels anchor year
      (existing ++ sortedDedup (planFromPixels pixels anchor year existing force))
      false) = [] := by
  refine ⟨rfl, ?_⟩
  have hnil : planFromPixels pixels anchor year
      (existing ++ sortedDedup (planFromPixels pixels anchor year existing force))
      false = [] := by
    rw [planFromPixels, List.filterMap_eq_nil_iff]
    intro p hp
    by_cases h1 : outOfYearBound (pixelDate anchor p) year = true
    · simp only [pixelDecision, if_pos h1]
    · have hmem : pixelDate anchor p ∈
          existing ++ sortedDedup (planFromPixels pixels anchor year existing force) := by
        by_cases h2 : (!force && existing.contains (pixelDate anchor p)) = true
        · exact List.mem_append_left _ (by simpa using ((Bool.and_eq_true _ _).mp h2).2)
        · refine List.mem_append_right _ ?_
          rw [mem_sortedDedup]
          exact List.mem_filterMap.mpr
            ⟨p, hp, by simp only [pixelDecision, if_neg h1, if_neg h2]⟩
      have hc : (!false && (existing ++
          sortedDedup (planFromPixels pixels anchor year existing force)).contains
            (pixelDate anchor p)) = true := by simp [hmem]
      simp only [pixelDecision, if_neg h1, if_pos hc]
  rw [hnil]
  rfl

/-- C6: the pixel-to-date mapping `(x, y) ↦ anchor + x weeks + y days` is
injective on the valid grid `x < 51`, `y < 7`. -/
theorem pixelDate_injective (anchor x1 y1 x2 y2 : Nat)
    (hx1 : x1 < MAX_IMAGE_WIDTH) (hy1 : y1 < MAX_IMAGE_HEIGHT)
    (hx2 : x2 < MAX_IMAGE_WIDTH) (hy2 : y2 < MAX_IMAGE_HEIGHT)
    (heq : pixelDate anchor (x1, y1) = pixelDate anchor (x2, y2)) :
    x1 = x2 ∧ y1 = y2 := by
  simp only [pixelDate, MAX_IMAGE_WIDTH, MAX_IMAGE_HEIGHT] at *
  omega

theorem pixelDate_injective_witness :
    (3 : Nat) < MAX_IMAGE_WIDTH ∧ (4 : Nat) < MAX_IMAGE_HEIGHT ∧
    ((3 : Nat) = 3 ∧ (4 : Nat) = 4) :=
  ⟨by decide, by decide,
    pixelDate_injective 100 3 4 3 4 (by decide) (by decide) (by decide) (by decide) rfl⟩

/-!  The image sampler and the run pipeline (`main` and
`process_image_and_commit`). -/

/-- A decoded raster image after `img.convert('RGBA')`: dimensions plus a
per-coordinate (r, g, b, a) sample. -/
structure Image where
  width : Nat
  height : Nat
  pix : Nat → Nat → Nat × Nat × Nat × Nat

/-- Mirrors `r == 0 and g == 0 and b == 0 and a > ALPHA_THRESHOLD` (git_art.py:162). -/
def isTargetPixel (c : Nat × Nat × Nat × Nat) : Bool :=
  decide (c.1 = 0) && decide (c.2.1 = 0) && decide (c.2.2.1 = 0) &&
    decide (ALPHA_THRESHOLD < c.2.2.2)

/-- Active pixels in the loop order of git_art.py:157-164: `img_x` outer,
`img_y` inner. -/
def activePixels (img : Image) : List (Nat × Nat) :=
  (List.range img.width).flatMap fun x =>
    (List.range img.height).filterMap fun y =>
      if isTargetPixel (img.pix x y) then some (x, y) else none

/-- ASCII case folding of `str.lower()` (enough for the confirmation strings). -/
def pyCharLower (c : Char) : Char :=
  if 'A' ≤ c ∧ c ≤ 'Z' then Char.ofNat (c.toNat + 32) else c

def pyLower (s : String) : String := String.mk (s.data.map pyCharLower)

/-- The commit loop of git_art.py:201-209: try each planned date in order with
`make_git_commit`; on success increment `successful_commits`, on the first
failure stop.  Returns the success count and the list of dates attempted. -/
def execLoop (commitOk : Nat → Bool) : List Nat → Nat × List Nat
  | [] => (0, [])
  | d :: ds =>
    if commitOk d then
      let r := execLoop commitOk ds
      (r.1 + 1, d :: r.2)
    else (0, [d])

/-- C7: the executor is fail-fast.  The success count equals the length of the
longest prefix of the plan on which the commit operation succeeds, and the
attempted dates are exactly that prefix followed by the first failing date if
one exists — so after a failure no later date in the plan is attempted, and on
each success the next date is processed. -/
theorem exec_fail_fast (commitOk : Nat → Bool) (plan : List Nat) :
    (execLoop commitOk plan).1 = (plan.takeWhile commitOk).length ∧
    (execLoop commitOk plan).2 =
      plan.takeWhile commitOk ++ (plan.dropWhile commitOk).take 1 := by
  induction plan with
  | nil => simp [execLoop]
  | cons d ds ih =>
    by_cases h : commitOk d = true
    · simp [execLoop, h, List.takeWhile_cons_of_pos, List.dropWhile_cons_of_pos, ih.1, ih.2]
    · simp [execLoop, h, List.takeWhile_cons_of_neg, List.dropWhile_cons_of_neg]

/-- Observable repository effects of one run. -/
inductive Eff where
  | repoProbe : Eff
  | historyQuery : Eff
  | commitAttempt : Nat → Eff
deriving DecidableEq

/-- Terminal outcome of one run. -/
inductive Outcome where
  | notARepository : Outcome
  | fatalHeight : Outcome
  | fatalWidth : Outcome
  | historyFailed : Outcome
  | noCommitsNeeded : Outcome
  | dryRunReport : List Nat → Outcome
  | userAborted : Outcome
  | executed : Nat → Nat → Outcome
deriving DecidableEq

/-- Lines 155-209 of git_art.py once the existing-date set is in hand: build
`commits_to_make`, return early when empty, report in dry-run mode, otherwise
gate on the confirmation string and run the commit loop over
`sorted(list(set(commits_to_make)))`. -/
def runPlanPhase (img : Image) (anchor year : Nat) (existing : List Nat)
    (force dryRun : Bool) (confirmation : String) (commitOk : Nat → Bool) :
    Outcome × List Eff :=
  let commitsToMake := planFromPixels (activePixels img) anchor year existing force
  if commitsToMake = [] then (Outcome.noCommitsNeeded, [])
  else if dryRun then (Outcome.dryRunReport (sortedDedup commitsToMake), [])
  else if pyLower confirmation ≠ "yes" then (Outcome.userAborted, [])
  else
    let plan := sortedDedup commitsToMake
    let r := execLoop commitOk plan
    (Outcome.executed r.1 plan.length, r.2.map Eff.commitAttempt)

/-- Mirrors `process_image_and_commit` (git_art.py:110-218), with the image already
decoded: dimension checks, anchor computation, then the history query (skipped
entirely under `--force`, git_art.py:147-153) and the plan phase.  `history`
is the environment's answer to `get_existing_commit_dates`: `none` when the
query fails fatally. -/
def processRun (img : Image) (year : Nat) (dryRun force : Bool)
    (history : Option (List Nat)) (confirmation : String) (commitOk : Nat → Bool) :
    Outcome × List Eff :=
  if MAX_IMAGE_HEIGHT < img.height then (Outcome.fatalHeight, [])
  else if MAX_IMAGE_WIDTH < img.width then (Outcome.fatalWidth, [])
  else
    let anchor := get_first_sunday_of_graph year
    if force then
      runPlanPhase img anchor year [] true dryRun confirmation commitOk
    else
      match history with
      | none => (Outcome.historyFailed, [Eff.historyQuery])
      | some existing =>
        let r := runPlanPhase img anchor year existing false dryRun confirmation commitOk
        (r.1, Eff.historyQuery :: r.2)

/-- Mirrors `main` (git_art.py:221-259): the `git rev-parse --is-inside-work-tree`
probe runs before anything else; only then is the image processed. -/
def mainRun (repoOk : Bool) (img : Image) (year : Nat) (dryRun force : Bool)
    (history : Option (List Nat)) (confirmation : String) (commitOk : Nat → Bool) :
    Outcome × List Eff :=
  if repoOk then
    let r := processRun img year dryRun force history confirmation commitOk
    (r.1, Eff.repoProbe :: r.2)
  else (Outcome.notARepository, [Eff.repoProbe])

/-- A 1×1 fully-opaque black image: one active pixel at (0, 0). -/
def blackPixelImage : Image := ⟨1, 1, fun _ _ => (0, 0, 0, 255)⟩

/-- A 1-px-wide, 8-px-tall image: taller than the 7-px maximum. -/
def tallImage : Image := ⟨1, 8, fun _ _ => (0, 0, 0, 255)⟩

/-- C8 counterexample: the gate compares `confirmation.lower() != 'yes'`
(git_art.py:196-197), so the input "YES" — which is not the literal "yes" —
does not abort: the run proceeds and attempts the planned commit. -/
theorem confirmation_uppercase_proceeds :
    ("YES" : String) ≠ "yes" ∧
    (processRun blackPixelImage 2024 false false (some []) "YES" (fun _ => true)).1 =
      Outcome.executed 1 1 ∧
    (processRun blackPixelImage 2024 false false (some []) "YES" (fun _ => true)).2 =
      [Eff.historyQuery, Eff.commitAttempt (get_first_sunday_of_graph 2024)] := by
  refine ⟨by decide, by decide, by decide⟩

/-- C8 amended: before real (non-dry-run) execution the tool prompts, and the
run proceeds exactly when the lowercased reply equals "yes"; any reply whose
lowercase form differs aborts with no commit attempted. -/
theorem confirmation_gate (img : Image) (year : Nat) (existing : List Nat)
    (conf : String) (commitOk : Nat → Bool)
    (hh : img.height ≤ MAX_IMAGE_HEIGHT) (hw : img.width ≤ MAX_IMAGE_WIDTH)
    (hplan : planFromPixels (activePixels img) (get_first_sunday_of_graph year) year
      existing false ≠ []) :
    ((processRun img year false false (some existing) conf commitOk).1 =
        Outcome.userAborted ↔ pyLower conf ≠ "yes") ∧
    (pyLower conf ≠ "yes" → ∀ d,
      Eff.commitAttempt d ∉ (processRun img year false false (some existing) conf commitOk).2) := by
  have hh' : ¬ MAX_IMAGE_HEIGHT < img.height := by omega
  have hw' : ¬ MAX_IMAGE_WIDTH < img.width := by omega
  have hrun : processRun img year false false (some existing) conf commitOk =
      ((runPlanPhase img (get_first_sunday_of_graph year) year existing false false conf
          commitOk).1,
        Eff.historyQuery :: (runPlanPhase img (get_first_sunday_of_graph year) year existing
          false false conf commitOk).2) := by
    simp only [processRun, if_neg hh', if_neg hw']
    rfl
  have hrpp : runPlanPhase img (get_first_sunday_of_graph year) year existing false false conf
      commitOk =
      (if pyLower conf ≠ "yes" then (Outcome.userAborted, ([] : List Eff))
       else
         (Outcome.executed
           (execLoop commitOk (sortedDedup (planFromPixels (activePixels img)
             (get_first_sunday_of_graph year) year existing false))).1
           (sortedDedup (planFromPixels (activePixels img)
             (get_first_sunday_of_graph year) year existing false)).length,
          (execLoop commitOk (sortedDedup (planFromPixels (activePixels img)
            (get_first_sunday_of_graph year) year existing false))).2.map
            Eff.commitAttempt)) := by
    simp only [runPlanPhase, if_neg hplan]
    rfl
  rw [hrun, hrpp]
  by_cases hc : pyLower conf = "yes"
  · rw [if_neg (by simpa using hc)]
    exact ⟨by simp [hc], fun hne => absurd hc hne⟩
  · rw [if_pos hc]
    refine ⟨by simp [hc], fun _ d hmem => ?_⟩
    simp at hmem

theorem confirmation_gate_witness :
    (processRun blackPixelImage 2024 false false (some []) "no" (fun _ => true)).1 =
      Outcome.userAborted :=
  (confirmation_gate blackPixelImage 2024 [] "no" (fun _ => true) (by decide) (by decide)
    (by decide)).1.mpr (by decide)

/-- C9 counterexample: for an 8-px-tall image the run does perform repository
access before the dimension failure — `main` issues the
`git rev-parse --is-inside-work-tree` probe unconditionally (git_art.py:234-243)
— so "no repository access is attempted" fails. -/
theorem tall_image_probe_counterexample :
    (mainRun true tallImage 2024 true false (some []) "" (fun _ => true)).1 =
      Outcome.fatalHeight ∧
    Eff.repoProbe ∈ (mainRun true tallImage 2024 true false (some []) "" (fun _ => true)).2 := by
  decide

/-- C9 amended: for every image taller than 7 px (run inside a repository) the
run fails fatally with the dimension-exceeded error, and the only repository
effect is the initial inside-work-tree probe: the existing-commit-date history
query is never invoked and no commit is attempted. -/
theorem tall_image_fatal (img : Image) (year : Nat) (dryRun force : Bool)
    (history : Option (List Nat)) (conf : String) (commitOk : Nat → Bool)
    (hh : MAX_IMAGE_HEIGHT < img.height) :
    (mainRun true img year dryRun force history conf commitOk).1 = Outcome.fatalHeight ∧
    (mainRun true img year dryRun force history conf commitOk).2 = [Eff.repoProbe] := by
  have hrun : processRun img year dryRun force history conf commitOk =
      (Outcome.fatalHeight, []) := by
    simp only [processRun, if_pos hh]
  constructor <;> · simp only [mainRun, if_pos rfl, hrun]; rfl

theorem tall_image_fatal_witness :
    (mainRun true tallImage 2024 false false (some []) "x" (fun _ => true)).1 =
      Outcome.fatalHeight :=
  (tall_image_fatal tallImage 2024 false false (some []) "x" (fun _ => true) (by decide)).1

theorem runPlanPhase_effects (img : Image) (anchor year : Nat) (existing : List Nat)
    (force dryRun : Bool) (conf : String) (commitOk : Nat → Bool) :
    Eff.historyQuery ∉ (runPlanPhase img anchor year existing force dryRun conf commitOk).2 ∧
    (runPlanPhase img anchor year existing force dryRun conf commitOk).1 ≠
      Outcome.historyFailed := by
  simp only [runPlanPhase]
  split <;> (try split) <;> (try split) <;> (try split) <;> simp [List.mem_map]

/-- C10: with `--force` on, the history query is never invoked — the
existing-date set is taken to be empty without calling the log — so a forced
run can never end in a history-query failure and never skips an in-range
date as already committed. -/
theorem force_no_history (img : Image) (year : Nat) (dryRun : Bool)
    (history : Option (List Nat)) (conf : String) (commitOk : Nat → Bool) :
    Eff.historyQuery ∉ (processRun img year dryRun true history conf commitOk).2 ∧
    (processRun img year dryRun true history conf commitOk).1 ≠ Outcome.historyFailed ∧
    (∀ p ∈ activePixels img,
      outOfYearBound (pixelDate (get_first_sunday_of_graph year) p) year = false →
      pixelDate (get_first_sunday_of_graph year) p ∈
        planFromPixels (activePixels img) (get_first_sunday_of_graph year) year [] true) := by
  have key : Eff.historyQuery ∉ (processRun img year dryRun true history conf commitOk).2 ∧
      (processRun img year dryRun true history conf commitOk).1 ≠ Outcome.historyFailed := by
    by_cases hh : MAX_IMAGE_HEIGHT < img.height
    · simp only [processRun, if_pos hh]
      exact ⟨by simp, by simp⟩
    · by_cases hw : MAX_IMAGE_WIDTH < img.width
      · simp only [processRun, if_neg hh, if_pos hw]
        exact ⟨by simp, by simp⟩
      · have h := runPlanPhase_effects img (get_first_sunday_of_graph year) year [] true dryRun
          conf commitOk
        simp only [processRun, if_neg hh, if_neg hw]
        exact h
  refine ⟨key.1, key.2, fun p hp hok => ?_⟩
  exact List.mem_filterMap.mpr ⟨p, hp, pixelDecision_accepts hok (Or.inl rfl)⟩

theorem force_no_history_witness :
    pixelDate (get_first_sunday_of_graph 2024) (0, 0) ∈
      planFromPixels (activePixels blackPixelImage) (get_first_sunday_of_graph 2024) 2024 []
        true :=
  (force_no_history blackPixelImage 2024 false (some []) "" (fun _ => true)).2.2 (0, 0)
    (by decide) (by decide)

end GitArt
